import Mathlib

/-!
Verification of the bubble-ai taxonomy classification pipeline.

Shallow embedding of the classifier package: bundle detection
(`bundles.ts`), confidence scoring (`confidence.ts`), candidate
generation (`candidates.ts`), prompt building / LLM-response parsing
(`prompts.ts`) and the orchestrator (`classify.ts`).  JavaScript numbers
are modelled as rationals, optional fields as `Option`, thrown errors as
`Except String`, and the external services (embedding search, hierarchy
lookup, decision service) as an explicit environment record.
-/

namespace BubbleAI

/-! ### Generic string helpers (JS semantics) -/

/-- JS whitespace class `\s` restricted to the ASCII white space
characters (space, tab, line feed, carriage return, vertical tab,
form feed). -/
def isJsSpace (c : Char) : Bool :=
  c = ' ' || c = '\t' || c = '\n' || c = '\r' || c = '\x0b' || c = '\x0c'

/-- `String.prototype.toLowerCase` (ASCII range, which covers every
keyword table and input used by the classifier). -/
def lowerStr (s : String) : String :=
  ⟨s.data.map Char.toLower⟩

/-- `String.prototype.trim` on a character list. -/
def trimChars (l : List Char) : List Char :=
  ((l.dropWhile isJsSpace).reverse.dropWhile isJsSpace).reverse

/-- `String.prototype.trim`. -/
def trimStr (s : String) : String :=
  ⟨trimChars s.data⟩

/-- `hay.includes(need)` : substring containment on character lists. -/
def containsSub (hay need : List Char) : Bool :=
  match hay with
  | [] => need.isEmpty
  | _ :: t => need.isPrefixOf hay || containsSub t need

/-- `hay.includes(need)` on strings. -/
def containsSubStr (hay need : String) : Bool :=
  containsSub hay.data need.data

/-- `code.split('-')` : split a character list at every dash. -/
def splitDash : List Char → List (List Char)
  | [] => [[]]
  | c :: rest =>
    if c = '-' then [] :: splitDash rest
    else
      match splitDash rest with
      | [] => [[c]]
      | h :: t => (c :: h) :: t

/-- `parts.join('-')`. -/
def joinDash : List (List Char) → List Char
  | [] => []
  | [s] => s
  | s :: rest => s ++ '-' :: joinDash rest

/-! ### Data model (`types.ts`) -/

/-- `ProductVariant`. -/
structure ProductVariant where
  title : Option String
  sku : Option String
  deriving DecidableEq, Repr

/-- `ClassificationInput`. -/
structure ClassificationInput where
  title : String
  description : Option String := none
  tags : Option (List String) := none
  productType : Option String := none
  variants : Option (List ProductVariant) := none
  deriving DecidableEq, Repr

/-- `BundleDetection`. -/
structure BundleDetection where
  isBundle : Bool
  confidence : ℚ
  signals : List String
  recommendedMaxDepth : ℕ
  deriving DecidableEq, Repr

/-- Origin of a candidate (`CategoryCandidate.source`). -/
inductive CandidateSource where
  | embedding
  | productType
  | manual
  deriving DecidableEq, Repr

/-- `CategoryCandidate`. -/
structure CategoryCandidate where
  code : String
  path : String
  level : ℕ
  source : CandidateSource
  score : ℚ
  deriving DecidableEq, Repr

instance : Inhabited CategoryCandidate :=
  ⟨⟨"", "", 0, CandidateSource.embedding, 0⟩⟩

/-! ### Bundle detection (`bundles.ts`) -/

/-- `BUNDLE_KEYWORDS` (longer phrases first, matched in order). -/
def bundleKeywords : List String :=
  ["variety pack", "sample pack", "gift box", "gift set", "gift pack",
   "mix pack", "combo pack", "multi-pack", "multipack", "starter kit",
   "discovery set", "trial pack", "explorer pack", "variety", "sampler",
   "assortment", "assorted", "bundle", "collection", "mixed", "combo"]

/-- `BUNDLE_TAGS`. -/
def bundleTags : List String :=
  ["bundle", "variety", "gift", "gift-box", "sampler", "assortment",
   "multi-pack", "set", "collection"]

/-- `BUNDLE_PRODUCT_TYPES`. -/
def bundleProductTypes : List String :=
  ["gift box", "gift set", "variety pack", "bundle", "sampler", "assortment"]

/-- `BUNDLE_MAX_DEPTH`. -/
def BUNDLE_MAX_DEPTH : ℕ := 3

/-- First keyword of `kws` contained in the (already lowercased) text:
the `for ... if (text.includes(keyword)) ... break` loops of
`detectBundle`. -/
def firstKeyword (text : String) (kws : List String) : Option String :=
  kws.find? (fun k => containsSubStr text k)

/-- Pack-size-only test `/^(\d+)\s*-?\s*(pack|count|ct|pc|pieces?|pk)$/i`
from `detectVariantBundleSignals`. -/
def packSizeOnly (t : String) : Bool :=
  let l := t.data.map Char.toLower
  let ds := l.takeWhile Char.isDigit
  if ds.isEmpty then false
  else
    let r1 := (l.dropWhile Char.isDigit).dropWhile isJsSpace
    let r2 := match r1 with
      | '-' :: rest => rest.dropWhile isJsSpace
      | _ => r1
    ["pack", "count", "ct", "pc", "piece", "pieces", "pk"].any
      (fun u => r2 = u.data)

/-- Size-only test
`/^(small|medium|large|xs|s|m|l|xl|xxl|\d+\s*(oz|g|ml|lb|kg))$/i`. -/
def sizeOnly (t : String) : Bool :=
  let l := t.data.map Char.toLower
  (["small", "medium", "large", "xs", "s", "m", "l", "xl", "xxl"].any
      (fun w => l = w.data)) ||
  (let ds := l.takeWhile Char.isDigit
   if ds.isEmpty then false
   else
     let r := (l.dropWhile Char.isDigit).dropWhile isJsSpace
     ["oz", "g", "ml", "lb", "kg"].any (fun u => r = u.data))

/-- `v.title?.toLowerCase().trim()` for one variant. -/
def normVariantTitle (v : ProductVariant) : Option String :=
  v.title.map (fun t => trimStr (lowerStr t))

/-- The `meaningfulVariants` list of `detectVariantBundleSignals`:
normalized titles, dropping empty ones (`.filter(Boolean)`) and
pack-size-only / size-only tokens. -/
def meaningfulVariants (variants : List ProductVariant) : List String :=
  ((variants.filterMap normVariantTitle).filter (fun t => t ≠ "")).filter
    (fun t => !packSizeOnly t && !sizeOnly t)

/-- Every present title of the variant is a pack-count-only token
(after the `toLowerCase().trim()` normalization the code applies). -/
def variantTitlePackOnly (v : ProductVariant) : Bool :=
  match v.title with
  | some t => packSizeOnly (trimStr (lowerStr t))
  | none => true

/-- `detectVariantBundleSignals` (current snapshot: pack-size-only
variants are excluded before counting). -/
def detectVariantBundleSignals (variants : List ProductVariant) : List String :=
  let uniq := (meaningfulVariants variants).dedup
  if 3 ≤ uniq.length then
    [toString uniq.length ++ " distinct product variants"]
  else []

/-- Title keyword hit of `detectBundle`. -/
def titleHit (input : ClassificationInput) : Option String :=
  firstKeyword (lowerStr input.title) bundleKeywords

/-- Description keyword hit of `detectBundle`. -/
def descHit (input : ClassificationInput) : Option String :=
  input.description.bind (fun d => firstKeyword (lowerStr d) bundleKeywords)

/-- ProductType hit of `detectBundle`. -/
def typeHit (input : ClassificationInput) : Option String :=
  input.productType.bind
    (fun p => bundleProductTypes.find? (fun bt => containsSubStr (lowerStr p) bt))

/-- Tag hit of `detectBundle`: first bundle tag matched by some product
tag (`t === bundleTag || t.includes(bundleTag)` over lowercased tags). -/
def tagHit (input : ClassificationInput) : Option String :=
  input.tags.bind (fun ts =>
    if ts.length = 0 then none
    else
      let tagsLower := ts.map lowerStr
      bundleTags.find? (fun bt =>
        tagsLower.any (fun t => t = bt || containsSubStr t bt)))

/-- Variant signals of `detectBundle` (guarded by
`input.variants && input.variants.length > 0`). -/
def variantSigs (input : ClassificationInput) : List String :=
  match input.variants with
  | none => []
  | some vs => if 0 < vs.length then detectVariantBundleSignals vs else []

/-- The accumulated `score` of `detectBundle` : one fixed weight per
matched source (title 0.4, description 0.2, productType 0.5, tag 0.4)
plus `0.2 * variantSignals.length`. -/
def bundleScore (input : ClassificationInput) : ℚ :=
  (if (titleHit input).isSome then 0.4 else 0) +
  (if (descHit input).isSome then 0.2 else 0) +
  (if (typeHit input).isSome then 0.5 else 0) +
  (if (tagHit input).isSome then 0.4 else 0) +
  0.2 * (variantSigs input).length

/-- The `signals` array of `detectBundle`, in push order. -/
def bundleSignalList (input : ClassificationInput) : List String :=
  (match titleHit input with
   | some k => ["title contains \"" ++ k ++ "\""]
   | none => []) ++
  (match descHit input with
   | some k => ["description contains \"" ++ k ++ "\""]
   | none => []) ++
  (match typeHit input, input.productType with
   | some _, some p => ["productType is \"" ++ p ++ "\""]
   | _, _ => []) ++
  (match tagHit input with
   | some bt => ["has bundle-related tag \"" ++ bt ++ "\""]
   | none => []) ++
  variantSigs input

/-- `detectBundle` (`bundles.ts`) : clamp the score to `[0,1]`,
compare against the `0.4` threshold, cap the depth for bundles. -/
def detectBundle (input : ClassificationInput) : BundleDetection :=
  let confidence := min (bundleScore input) 1
  let isBundle : Bool := decide ((0.4 : ℚ) ≤ confidence)
  { isBundle := isBundle
    confidence := confidence
    signals := bundleSignalList input
    recommendedMaxDepth := if isBundle then BUNDLE_MAX_DEPTH else 7 }

/-- `getMaxDepthForBundle`. -/
def getMaxDepthForBundle (isBundle : Bool) : ℕ :=
  if isBundle then BUNDLE_MAX_DEPTH else 7

/-! ### Confidence scoring (`confidence.ts`, current snapshot) -/

/-- `DEFAULT_CONFIDENCE_THRESHOLD`. -/
def DEFAULT_CONFIDENCE_THRESHOLD : ℚ := 0.85

/-- `WEIGHTS.llmConfidence` (LLM-dominant snapshot). -/
def W_llmConfidence : ℚ := 0.85

/-- `WEIGHTS.embeddingScore`. -/
def W_embeddingScore : ℚ := 0.1

/-- `WEIGHTS.bundleAdjustment`. -/
def W_bundleAdjustment : ℚ := 0.05

/-- `calculateConfidence`.  The optional parameters model the
`embeddingScore?` / `bundleDetection?` fields of its params object. -/
def calculateConfidence (llmConfidence : ℚ) (embeddingScore : Option ℚ)
    (bundleDetection : Option BundleDetection) : ℚ :=
  let s1 := llmConfidence * W_llmConfidence
  let s2 := s1 + (match embeddingScore with
    | some e => e * W_embeddingScore
    | none => 0)
  let s3 := s2 - (match bundleDetection with
    | some bd => if bd.isBundle then W_bundleAdjustment * (1 - bd.confidence) else 0
    | none => 0)
  min 1 (max 0 s3)

/-- `needsReview`. -/
def needsReview (confidence threshold : ℚ) : Bool :=
  decide (confidence < threshold)

/-- `ClassificationSignals` (current snapshot of `buildSignals`). -/
structure ClassificationSignals where
  isBundle : Bool
  embeddingTopMatch : Option String
  embeddingScore : Option ℚ
  deriving DecidableEq, Repr

/-- `buildSignals`. -/
def buildSignals (bundleDetection : BundleDetection)
    (topCandidate : Option CategoryCandidate) : ClassificationSignals :=
  { isBundle := bundleDetection.isBundle
    embeddingTopMatch := topCandidate.map (fun c => c.path)
    embeddingScore := topCandidate.map (fun c => c.score) }

/-- `adjustCategoryForBundle`. -/
def adjustCategoryForBundle (selectedCode : String)
    (bundleDetection : BundleDetection) : String :=
  if !bundleDetection.isBundle then selectedCode
  else
    let parts := splitDash selectedCode.data
    let maxParts := bundleDetection.recommendedMaxDepth + 1
    if maxParts < parts.length then ⟨joinDash (parts.take maxParts)⟩
    else selectedCode

/-- `scoreSpecificity`. -/
def scoreSpecificity (level : ℕ) (maxLevel : ℕ := 7) : ℚ :=
  (level : ℚ) / (maxLevel : ℚ)

/-! ### JSON values and `JSON.parse`

`parseClassificationResponse` and `parseAttributeResponse` feed the
regex-extracted block to `JSON.parse`.  JSON numbers are modelled
exactly as rationals. -/

/-- A parsed JSON value. -/
inductive Json where
  | null
  | bool (b : Bool)
  | num (q : ℚ)
  | str (s : String)
  | arr (elems : List Json)
  | obj (fields : List (String × Json))
  deriving Repr

/-- JSON whitespace (space, tab, line feed, carriage return). -/
def isJsonWs (c : Char) : Bool :=
  c = ' ' || c = '\t' || c = '\n' || c = '\r'

/-- Skip JSON whitespace. -/
def skipWs (l : List Char) : List Char :=
  l.dropWhile isJsonWs

/-- Hex digit value. -/
def hexVal (c : Char) : Option ℕ :=
  if '0' ≤ c ∧ c ≤ '9' then some (c.toNat - '0'.toNat)
  else if 'a' ≤ c ∧ c ≤ 'f' then some (c.toNat - 'a'.toNat + 10)
  else if 'A' ≤ c ∧ c ≤ 'F' then some (c.toNat - 'A'.toNat + 10)
  else none

/-- Fuel-indexed body of a JSON string literal (opening quote already
consumed); returns the decoded characters and the remaining input.
Rejects unescaped control characters, as `JSON.parse` does. -/
def parseStrGo : ℕ → List Char → Option (List Char × List Char)
  | 0, _ => none
  | fuel + 1, l =>
    match l with
    | [] => none
    | c :: rest =>
      if c = '"' then some ([], rest)
      else if c = '\\' then
        match rest with
        | [] => none
        | e :: rest2 =>
          if e = 'u' then
            match rest2 with
            | h1 :: h2 :: h3 :: h4 :: rest3 =>
              match hexVal h1, hexVal h2, hexVal h3, hexVal h4 with
              | some a, some b, some c3, some d =>
                match parseStrGo fuel rest3 with
                | some (cs, rem) =>
                  some (Char.ofNat (((a * 16 + b) * 16 + c3) * 16 + d) :: cs, rem)
                | none => none
              | _, _, _, _ => none
            | _ => none
          else
            let dec : Option Char :=
              if e = '"' then some '"'
              else if e = '\\' then some '\\'
              else if e = '/' then some '/'
              else if e = 'b' then some '\x08'
              else if e = 'f' then some '\x0c'
              else if e = 'n' then some '\n'
              else if e = 'r' then some '\r'
              else if e = 't' then some '\t'
              else none
            match dec with
            | none => none
            | some d =>
              match parseStrGo fuel rest2 with
              | some (cs, rem) => some (d :: cs, rem)
              | none => none
      else if c.toNat < 0x20 then none
      else
        match parseStrGo fuel rest with
        | some (cs, rem) => some (c :: cs, rem)
        | none => none

/-- Body of a JSON string literal; every step of `parseStrGo` consumes
at least one character, so the input length is sufficient fuel. -/
def parseStrBody (l : List Char) : Option (List Char × List Char) :=
  parseStrGo l.length l

/-- Digits to a natural number. -/
def digitsToNat (ds : List Char) : ℕ :=
  ds.foldl (fun acc c => acc * 10 + (c.toNat - '0'.toNat)) 0

/-- A JSON number literal: `-? int frac? exp?` with
`int = 0 | [1-9][0-9]*`. -/
def parseNum (l : List Char) : Option (ℚ × List Char) :=
  let (neg, l1) : Bool × List Char :=
    match l with
    | '-' :: r => (true, r)
    | _ => (false, l)
  match l1 with
  | [] => none
  | c :: _ =>
    if ¬c.isDigit then none
    else
      let intDs := l1.takeWhile Char.isDigit
      -- JSON forbids leading zeros: `0` only as the sole integer digit
      if c = '0' ∧ 1 < intDs.length then none
      else
        let l2 := l1.dropWhile Char.isDigit
        let intV : ℚ := (digitsToNat intDs : ℚ)
        let (fracV, l3) : ℚ × List Char :=
          match l2 with
          | '.' :: r =>
            let fds := r.takeWhile Char.isDigit
            if fds.isEmpty then ((0 : ℚ), '.' :: r)
            else ((digitsToNat fds : ℚ) / ((10 : ℚ) ^ fds.length),
                  r.dropWhile Char.isDigit)
          | _ => ((0 : ℚ), l2)
        -- a fraction dot with no digits is a parse error
        if l3.head? = some '.' then none
        else
          let (expOk, expV, l4) : Bool × ℤ × List Char :=
            match l3 with
            | e :: r =>
              if e = 'e' ∨ e = 'E' then
                let (esign, r1) : Bool × List Char :=
                  match r with
                  | '+' :: rr => (false, rr)
                  | '-' :: rr => (true, rr)
                  | _ => (false, r)
                let eds := r1.takeWhile Char.isDigit
                if eds.isEmpty then (false, 0, l3)
                else
                  (true,
                   if esign then -(digitsToNat eds : ℤ) else (digitsToNat eds : ℤ),
                   r1.dropWhile Char.isDigit)
              else (true, 0, l3)
            | [] => (true, 0, l3)
          if ¬expOk then none
          else
            let mag : ℚ := (intV + fracV) * (10 : ℚ) ^ expV
            some (if neg then -mag else mag, l4)

/-- One JSON value (leading whitespace allowed), fuel-indexed so that
the recursion is structural.  The tail of an array or object after a
comma is parsed by a recursive call on a synthetic re-opened
collection, which matches the JSON grammar (and a trailing comma is
rejected first, as `JSON.parse` does). -/
def parseVal : ℕ → List Char → Option (Json × List Char)
  | 0, _ => none
  | fuel + 1, l =>
    let l := skipWs l
    match l with
    | 'n' :: 'u' :: 'l' :: 'l' :: r => some (Json.null, r)
    | 't' :: 'r' :: 'u' :: 'e' :: r => some (Json.bool true, r)
    | 'f' :: 'a' :: 'l' :: 's' :: 'e' :: r => some (Json.bool false, r)
    | '"' :: r =>
      match parseStrBody r with
      | some (cs, rem) => some (Json.str ⟨cs⟩, rem)
      | none => none
    | '[' :: r =>
      match skipWs r with
      | ']' :: r2 => some (Json.arr [], r2)
      | _ =>
        match parseVal fuel r with
        | none => none
        | some (v, rem) =>
          match skipWs rem with
          | ']' :: r2 => some (Json.arr [v], r2)
          | ',' :: r2 =>
            match skipWs r2 with
            | ']' :: _ => none
            | _ =>
              match parseVal fuel ('[' :: r2) with
              | some (Json.arr xs, rem2) => some (Json.arr (v :: xs), rem2)
              | _ => none
          | _ => none
    | '{' :: r =>
      match skipWs r with
      | '}' :: r2 => some (Json.obj [], r2)
      | '"' :: r1 =>
        match parseStrBody r1 with
        | none => none
        | some (key, r2) =>
          match skipWs r2 with
          | ':' :: r3 =>
            match parseVal fuel r3 with
            | none => none
            | some (v, rem) =>
              match skipWs rem with
              | '}' :: r4 => some (Json.obj [(⟨key⟩, v)], r4)
              | ',' :: r4 =>
                match skipWs r4 with
                | '}' :: _ => none
                | _ =>
                  match parseVal fuel ('{' :: r4) with
                  | some (Json.obj fs, rem2) =>
                    some (Json.obj ((⟨key⟩, v) :: fs), rem2)
                  | _ => none
              | _ => none
          | _ => none
      | _ => none
    | _ =>
      match parseNum l with
      | some (q, rem) => some (Json.num q, rem)
      | none => none

/-- `JSON.parse` : parse one value and require only whitespace after. -/
def jsonParse (l : List Char) : Option Json :=
  match parseVal (l.length + 2) l with
  | some (v, rest) => if (skipWs rest).isEmpty then some v else none
  | none => none

/-! ### JS value coercions used by the parsers -/

/-- Property access `parsed.k` on a decoded value: `none` models
`undefined`.  Duplicate keys: last one wins, as in `JSON.parse`. -/
def getField (j : Json) (k : String) : Option Json :=
  match j with
  | .obj fs => fs.foldl (fun acc p => if p.1 = k then some p.2 else acc) none
  | _ => none

/-- JS truthiness of a defined value. -/
def jsTruthy (v : Json) : Bool :=
  match v with
  | .null => false
  | .bool b => b
  | .num q => decide (q ≠ 0)
  | .str s => decide (s ≠ "")
  | .arr _ => true
  | .obj _ => true

/-- `a || b` on possibly-undefined values. -/
def jsOr (a b : Option Json) : Option Json :=
  match a with
  | some v => if jsTruthy v then some v else b
  | none => b

/-- `x === s` between a JS string and a possibly-undefined value. -/
def jsEqStr (code : String) (v : Option Json) : Bool :=
  match v with
  | some (.str s) => decide (code = s)
  | _ => false

/-- `Number(str)` restricted to decimal literals: optional sign,
digits with optional fraction and exponent (an empty or blank string
coerces to `0`; anything else non-decimal, e.g. hex, is modelled as
`NaN` = `none`). -/
def strToNumber (s : String) : Option ℚ :=
  let t := trimChars s.data
  if t.isEmpty then some 0
  else
    let (neg, l1) : Bool × List Char :=
      match t with
      | '+' :: r => (false, r)
      | '-' :: r => (true, r)
      | _ => (false, t)
    let ids := l1.takeWhile Char.isDigit
    let l2 := l1.dropWhile Char.isDigit
    let (fds, l3) : List Char × List Char :=
      match l2 with
      | '.' :: r => (r.takeWhile Char.isDigit, r.dropWhile Char.isDigit)
      | _ => ([], l2)
    if ids.isEmpty ∧ fds.isEmpty then none
    else
      let (expOk, expV, l4) : Bool × ℤ × List Char :=
        match l3 with
        | e :: r =>
          if e = 'e' ∨ e = 'E' then
            let (esign, r1) : Bool × List Char :=
              match r with
              | '+' :: rr => (false, rr)
              | '-' :: rr => (true, rr)
              | _ => (false, r)
            let eds := r1.takeWhile Char.isDigit
            if eds.isEmpty then (false, 0, l3)
            else
              (true,
               if esign then -(digitsToNat eds : ℤ) else (digitsToNat eds : ℤ),
               r1.dropWhile Char.isDigit)
          else (true, 0, l3)
        | [] => (true, 0, l3)
      if ¬expOk ∨ ¬l4.isEmpty then none
      else
        let mag : ℚ :=
          ((digitsToNat ids : ℚ) + (digitsToNat fds : ℚ) / (10 : ℚ) ^ fds.length) *
            (10 : ℚ) ^ expV
        some (if neg then -mag else mag)

/-- `Number(v)` on a possibly-undefined decoded value; `none` models
`NaN`.  (JS coerces arrays through their string form; only the empty
array, which coerces to `0`, is modelled — no classifier input puts an
array where a number is expected.) -/
def toNumber (v : Option Json) : Option ℚ :=
  match v with
  | none => none
  | some .null => some 0
  | some (.bool b) => some (if b then 1 else 0)
  | some (.num q) => some q
  | some (.str s) => strToNumber s
  | some (.arr []) => some 0
  | some (.arr (_ :: _)) => none
  | some (.obj _) => none

/-- `x || d` for a number that may be `NaN` (`none`): `NaN` and `0`
are falsy. -/
def jsOrNum (x : Option ℚ) (d : ℚ) : ℚ :=
  match x with
  | some q => if q = 0 then d else q
  | none => d

/-! ### Response parsing (`prompts.ts`) -/

/-- The regex match `response.match(/\x7b[\s\S]*\x7d/)` : the span from
the first opening brace to the last closing brace after it (the
quantifier is greedy). -/
def extractBrace (s : List Char) : Option (List Char) :=
  match s.dropWhile (fun c => c ≠ '{') with
  | [] => none
  | c :: rest =>
    let revTail := rest.reverse.dropWhile (fun c2 => c2 ≠ '}')
    if revTail.isEmpty then none else some (c :: revTail.reverse)

/-- The parsed LLM classification decision.  `selectedCode` is
`parsed.selected_code || parsed.selectedCode` and may be `undefined`
(`none`) or a non-string JSON value; `reasoning` is
`parsed.reasoning || ''`. -/
structure ClassificationDecision where
  selectedCode : Option Json
  confidence : ℚ
  reasoning : Json
  deriving Repr

/-- `parseClassificationResponse`. -/
def parseClassificationResponse (response : String) :
    Option ClassificationDecision :=
  match extractBrace response.data with
  | none => none
  | some block =>
    match jsonParse block with
    | none => none
    | some parsed =>
      some
        { selectedCode :=
            jsOr (getField parsed "selected_code") (getField parsed "selectedCode")
          confidence :=
            min 1 (max 0 (jsOrNum (toNumber (getField parsed "confidence")) 0))
          reasoning :=
            match getField parsed "reasoning" with
            | some v => if jsTruthy v then v else Json.str ""
            | none => Json.str "" }

/-- Scan for the closing brace matching an already-consumed opening
brace, tracking nesting depth. -/
def balancedGo : ℕ → List Char → List Char → Option (List Char)
  | _, _, [] => none
  | d, acc, c :: rest =>
    if c = '{' then balancedGo (d + 1) (c :: acc) rest
    else if c = '}' then
      if d = 1 then some (c :: acc).reverse else balancedGo (d - 1) (c :: acc) rest
    else balancedGo d (c :: acc) rest

/-- Modelled from the spec: "the parser extracts the first balanced
brace-delimited JSON-like block from free text".  Returns the substring
from the first opening brace to its matching closing brace. -/
def firstBalancedBlock (s : List Char) : Option (List Char) :=
  match s.dropWhile (fun c => c ≠ '{') with
  | [] => none
  | c :: rest => balancedGo 1 [c] rest

/-- Modelled from the spec: `parseClassificationResponse` as §4.3
describes it — identical decode and clamping, but applied to the first
*balanced* brace-delimited block. -/
def parseClassificationResponseSpec (response : String) :
    Option ClassificationDecision :=
  match firstBalancedBlock response.data with
  | none => none
  | some block =>
    match jsonParse block with
    | none => none
    | some parsed =>
      some
        { selectedCode :=
            jsOr (getField parsed "selected_code") (getField parsed "selectedCode")
          confidence :=
            min 1 (max 0 (jsOrNum (toNumber (getField parsed "confidence")) 0))
          reasoning :=
            match getField parsed "reasoning" with
            | some v => if jsTruthy v then v else Json.str ""
            | none => Json.str "" }

/-- One attribute row produced by `parseAttributeResponse`. -/
structure ParsedAttribute where
  handle : Option Json
  value : Option Json
  confidence : ℚ
  deriving Repr

/-- `parseAttributeResponse`.  A truthy non-array `attributes` field
makes `.map` throw, which the surrounding `catch` turns into `[]`. -/
def parseAttributeResponse (response : String) : List ParsedAttribute :=
  match extractBrace response.data with
  | none => []
  | some block =>
    match jsonParse block with
    | none => []
    | some parsed =>
      let attrsVal : Json :=
        match getField parsed "attributes" with
        | some v => if jsTruthy v then v else Json.arr []
        | none => Json.arr []
      match attrsVal with
      | .arr xs =>
        xs.map (fun a =>
          { handle := getField a "handle"
            value := getField a "value"
            confidence :=
              min 1 (max 0 (jsOrNum (toNumber (getField a "confidence")) 0.5)) })
      | _ => []

/-! ### Description cleaning and prompt building (`prompts.ts`) -/

/-- `.replace(/<[^>]*>/g, ' ')` : each maximal `<...>` span (an
opening angle bracket up to the next closing one) becomes one space; an
opening bracket with no closing bracket anywhere after it stays. -/
def stripHtml : List Char → List Char
  | [] => []
  | c :: rest =>
    if c = '<' then
      if rest.contains '>' then
        ' ' :: stripHtml ((rest.dropWhile (fun x => x ≠ '>')).tail)
      else c :: rest
    else c :: stripHtml rest
  termination_by l => l.length
  decreasing_by
    · simp only [List.length_cons]
      exact Nat.lt_succ_of_le (le_trans ((List.tail_sublist _).length_le)
        ((List.dropWhile_sublist _).length_le))
    · simp

/-- `.replace(/\s+/g, ' ')` : collapse every whitespace run to one
space. -/
def collapseWs : List Char → List Char
  | [] => []
  | c :: rest =>
    if isJsSpace c then ' ' :: collapseWs (rest.dropWhile isJsSpace)
    else c :: collapseWs rest
  termination_by l => l.length
  decreasing_by
    · simp only [List.length_cons]
      exact Nat.lt_succ_of_le ((List.dropWhile_sublist _).length_le)
    · simp

/-- The description-cleaning chain of `formatProductInfo` and
`buildSearchText` : strip markup, collapse whitespace, trim, then
`.slice(0, n)`. -/
def cleanDescription (d : String) (n : ℕ) : String :=
  ⟨(trimChars (collapseWs (stripHtml d.data))).take n⟩

/-- The `lines` array built by `formatProductInfo` (before the final
`join('\n')`).  Falsy (empty) optional fields are skipped, as in JS. -/
def formatProductInfoLines (input : ClassificationInput) : List String :=
  ["**Title:** " ++ input.title] ++
  (match input.productType with
   | some p => if p = "" then [] else ["**Product Type:** " ++ p]
   | none => []) ++
  (match input.description with
   | some d => if d = "" then [] else ["**Description:** " ++ cleanDescription d 300]
   | none => []) ++
  (match input.tags with
   | some ts =>
     if 0 < ts.length then ["**Tags:** " ++ String.intercalate ", " ts] else []
   | none => []) ++
  (match input.variants with
   | some vs =>
     if 0 < vs.length then
       let variantTitles :=
         ((vs.filterMap (fun v => v.title)).filter (fun t => t ≠ "")).take 5
       if 0 < variantTitles.length then
         ["**Variants:** " ++ String.intercalate ", " variantTitles]
       else []
     else []
   | none => [])

/-- `formatProductInfo`. -/
def formatProductInfo (input : ClassificationInput) : String :=
  String.intercalate "\n" (formatProductInfoLines input)

/-- `score.toFixed(2)` for the candidate scores (round to two decimal
places, half away from zero — faithful for every score the pipeline
produces). -/
def toFixed2 (q : ℚ) : String :=
  let n : ℕ := (Int.floor (|q| * 100 + 1 / 2)).toNat
  let frac := n % 100
  (if q < 0 ∧ 0 < n then "-" else "") ++ toString (n / 100) ++ "." ++
    (if frac < 10 then "0" ++ toString frac else toString frac)

/-- `formatCandidates`. -/
def formatCandidates (candidates : List CategoryCandidate) : String :=
  String.intercalate "\n"
    (candidates.enum.map (fun p =>
      toString (p.1 + 1) ++ ". **" ++ p.2.code ++ "** - " ++ p.2.path ++
        " (Level " ++ toString p.2.level ++ ", Score: " ++ toFixed2 p.2.score ++ ")"))

/-- `buildClassificationSystemPrompt`. -/
def buildClassificationSystemPrompt : String :=
  "You are an expert product categorizer for a specialty food e-commerce store.\n" ++
  "Your task is to select the best category for a product from a list of candidates.\n" ++
  "\n" ++
  "## Purpose of Categories\n" ++
  "Categories serve three critical functions:\n" ++
  "1. **Discovery**: Where would a shopper look for this product in a grocery store or e-commerce site?\n" ++
  "2. **Merchandising**: What collections and pairings make sense? (e.g., crackers pair with cheese, snacks for entertaining)\n" ++
  "3. **Filtering**: Each category exposes attributes for dietary preferences, allergens, and ingredients.\n" ++
  "\n" ++
  "## Guidelines\n" ++
  "\n" ++
  "### Think Like a Shopper\n" ++
  "- Ask yourself: \"If I wanted to buy this, where would I look?\"\n" ++
  "- Consider how the product is consumed (snack, meal component, ingredient, beverage)\n" ++
  "- Consider what it pairs with or replaces\n" ++
  "\n" ++
  "### Product Characteristics Over Labels\n" ++
  "- A crispbread is shelf-stable and eaten with toppings → that's a cracker/snack, not fresh bakery\n" ++
  "- A dried fruit is shelf-stable and eaten as a snack → that's a snack, not fresh produce\n" ++
  "- A granola bar is grab-and-go → that's a snack, not breakfast cereal\n" ++
  "- Focus on physical form and consumption occasion, not how it was made\n" ++
  "\n" ++
  "### Specificity\n" ++
  "- Choose the MOST SPECIFIC category that accurately describes the product\n" ++
  "- But don't force specificity if a broader category is more appropriate\n" ++
  "- For bundles/variety packs, choose a broader category that encompasses all items\n" ++
  "\n" ++
  "### When Unsure\n" ++
  "- If multiple categories could work, choose the one with better discoverability\n" ++
  "- Snack Foods is often correct for shelf-stable, grab-and-go items\n" ++
  "- Consider: \"What else would be in this aisle?\"\n" ++
  "\n" ++
  "Respond in JSON format only."

/-- `buildClassificationUserPrompt`. -/
def buildClassificationUserPrompt (input : ClassificationInput)
    (candidates : List CategoryCandidate) : String :=
  "## Product Information\n" ++ formatProductInfo input ++
  "\n\n## Candidate Categories\n" ++ formatCandidates candidates ++
  "\n\nSelect the best category and respond with this exact JSON structure:\n" ++
  "\x7b\n  \"selected_code\": \"the category code you chose\",\n" ++
  "  \"confidence\": 0.95,\n" ++
  "  \"reasoning\": \"Brief explanation of why this category is the best fit\"\n\x7d"

/-- Attribute rendering of `buildAttributeExtractionPrompt` : handle,
name and up to ten enumerated values. -/
structure PromptAttribute where
  handle : String
  name : String
  values : Option (List String)
  deriving DecidableEq, Repr

/-- `buildAttributeExtractionPrompt`. -/
def buildAttributeExtractionPrompt (input : ClassificationInput)
    (categoryPath : String) (availableAttributes : List PromptAttribute) : String :=
  let attrList := String.intercalate "\n"
    (availableAttributes.map (fun a =>
      let valuesStr :=
        match a.values with
        | some vs =>
          if 0 < vs.length then
            " (values: " ++ String.intercalate ", " (vs.take 10) ++ ")"
          else ""
        | none => ""
      "- **" ++ a.handle ++ "**: " ++ a.name ++ valuesStr))
  "## Product\n" ++ formatProductInfo input ++
  "\n\n## Assigned Category\n" ++ categoryPath ++
  "\n\n## Available Attributes\n" ++ attrList ++
  "\n\nExtract applicable attribute values from the product information.\n" ++
  "Only include attributes where you can confidently determine the value.\n" ++
  "\nRespond with this exact JSON structure:\n" ++
  "\x7b\n  \"attributes\": [\n" ++
  "    \x7b\"handle\": \"attribute_handle\", \"value\": \"extracted_value\", \"confidence\": 0.9\x7d\n" ++
  "  ]\n\x7d\n" ++
  "\nIf no attributes can be extracted, return: \x7b\"attributes\": []\x7d"

/-! ### Candidate generation (`candidates.ts`, current snapshot) -/

/-- `isMarketingTag` : the fixed marketing-pattern list, each pattern a
full case-insensitive match on the trimmed tag (`.?` = one optional
character). -/
def twoWordTag (l : List Char) (a b : String) : Bool :=
  a.data.isPrefixOf l &&
    (let r := l.drop a.data.length
     r = b.data || (match r with
       | _ :: rs => rs = b.data
       | [] => false))

/-- `isMarketingTag`. -/
def isMarketingTag (tag : String) : Bool :=
  let l := (lowerStr (trimStr tag)).data
  (["new", "sale", "featured", "trending", "popular", "limited",
    "exclusive"].any (fun w => l = w.data)) ||
  twoWordTag l "staff" "pick" || twoWordTag l "best" "seller"

/-- `buildSearchText` (current snapshot: the merchant `productType`
label is deliberately excluded). -/
def buildSearchText (input : ClassificationInput) : String :=
  let parts : List String :=
    [input.title] ++
    (match input.description with
     | some d =>
       if d = "" then []
       else
         let cleanDesc := cleanDescription d 500
         if cleanDesc ≠ "" then [cleanDesc] else []
     | none => []) ++
    (match input.tags with
     | some ts =>
       if 0 < ts.length then
         let productTags := (ts.filter (fun t => !isMarketingTag t)).take 5
         if 0 < productTags.length then [String.intercalate " " productTags] else []
       else []
     | none => [])
  String.intercalate " | " parts

/-- A row returned by the vector store (`matchTaxonomyCategories`). -/
structure TaxonomySearchResult where
  categoryCode : String
  fullPath : String
  level : ℕ
  similarity : ℚ
  deriving DecidableEq, Repr

/-- An attribute reference attached to a hierarchy node. -/
structure AttributeRef where
  id : String
  name : String
  deriving DecidableEq, Repr

/-- A hierarchy node as returned by `getCategoryByCode`. -/
structure TaxonomyCategory where
  id : String
  full_name : String
  level : ℕ
  attributes : Option (List AttributeRef)
  deriving DecidableEq, Repr

/-- Attribute definition returned by `getAttributeByHandle` (`values`
already projected to the value names, as the call site does). -/
structure AttributeDef where
  handle : String
  name : String
  values : Option (List String)
  deriving DecidableEq, Repr

/-- The external collaborators of the pipeline (§6 of the spec):
embedding generation + vector search fused into one call (the
similarity threshold and the food-prefix filter are constants inside
it), the hierarchy lookups, and the natural-language decision service
(`system? → user prompt → free text`).  An `Except.error` models a
rejected promise. -/
structure ClassifierEnv where
  embedSearch : String → ℕ → Option ℕ → Except String (List TaxonomySearchResult)
  lookup : String → Option TaxonomyCategory
  attrByHandle : String → Option AttributeDef
  llm : Option String → String → Except String String

/-- `getCandidatesFromEmbeddings` : build the search text, call the
embedding search, map rows to candidates; any error is caught and
yields the empty list. -/
def getCandidatesFromEmbeddings (env : ClassifierEnv)
    (input : ClassificationInput) (maxCandidates : ℕ) (maxDepth : Option ℕ) :
    List CategoryCandidate :=
  let searchText := buildSearchText input
  match env.embedSearch searchText maxCandidates maxDepth with
  | .error _ => []
  | .ok results =>
    results.map (fun r =>
      { code := r.categoryCode
        path := r.fullPath
        level := r.level
        source := CandidateSource.embedding
        score := r.similarity })

/-- The comparator `(a, b) => b.score - a.score` : descending score. -/
def byScoreDesc (a b : CategoryCandidate) : Prop :=
  b.score ≤ a.score

instance : DecidableRel byScoreDesc := fun a b =>
  inferInstanceAs (Decidable (b.score ≤ a.score))

instance : IsTotal CategoryCandidate byScoreDesc :=
  ⟨fun a b => le_total b.score a.score⟩

instance : IsTrans CategoryCandidate byScoreDesc :=
  ⟨fun _ _ _ h1 h2 => le_trans h2 h1⟩

/-- `getCandidates` (current snapshot: embedding search only, sorted
descending and truncated). -/
def getCandidates (env : ClassifierEnv) (input : ClassificationInput)
    (maxCandidates : ℕ) (maxDepth : Option ℕ) : List CategoryCandidate :=
  let candidates := getCandidatesFromEmbeddings env input maxCandidates maxDepth
  (List.insertionSort byScoreDesc candidates).take maxCandidates

/-- One `byCode.set` step of `deduplicateCandidates` : a JS `Map`
keyed by code keeps first-insertion order and, per the guard
`!existing || candidate.score > existing.score`, replaces the stored
candidate only on a strictly higher score. -/
def upsert : List CategoryCandidate → CategoryCandidate → List CategoryCandidate
  | [], c => [c]
  | a :: rest, c =>
    if a.code = c.code then
      if a.score < c.score then c :: rest else a :: rest
    else a :: upsert rest c

/-- `deduplicateCandidates`. -/
def deduplicateCandidates (candidates : List CategoryCandidate) :
    List CategoryCandidate :=
  candidates.foldl upsert []

/-- The merge step of the two-source `getCandidates` snapshot
(`candidates.ts` lines 419-456): concatenate the ProductType-anchor and
embedding source lists, deduplicate by code keeping the highest score,
sort descending, truncate. -/
def mergeCandidates (productTypeCands embeddingCands : List CategoryCandidate)
    (maxCandidates : ℕ) : List CategoryCandidate :=
  (List.insertionSort byScoreDesc
    (deduplicateCandidates (productTypeCands ++ embeddingCands))).take maxCandidates

/-- `ProductTypeMapping`. -/
structure ProductTypeMapping where
  productType : String
  categoryCode : String
  deriving DecidableEq, Repr

/-- `findProductTypeMapping`. -/
def findProductTypeMapping (productType : Option String)
    (mappings : List ProductTypeMapping) : Option ProductTypeMapping :=
  match productType with
  | none => none
  | some p =>
    if p = "" then none
    else
      let normalized := trimStr (lowerStr p)
      mappings.find? (fun m => lowerStr m.productType = normalized)

/-- `getCandidatesFromProductType`. -/
def getCandidatesFromProductType (env : ClassifierEnv)
    (mapping : ProductTypeMapping) : List CategoryCandidate :=
  match env.lookup mapping.categoryCode with
  | none => []
  | some category =>
    [{ code := mapping.categoryCode
       path := category.full_name
       level := category.level
       source := CandidateSource.productType
       score := 0.9 }]

/-- The two-source `getCandidates` snapshot in full. -/
def getCandidatesTwoSource (env : ClassifierEnv) (input : ClassificationInput)
    (mappings : List ProductTypeMapping) (maxCandidates : ℕ)
    (maxDepth : Option ℕ) : List CategoryCandidate :=
  let productTypeCands :=
    match findProductTypeMapping input.productType mappings with
    | some m => getCandidatesFromProductType env m
    | none => []
  mergeCandidates productTypeCands
    (getCandidatesFromEmbeddings env input maxCandidates maxDepth) maxCandidates

/-! ### Orchestrator (`classify.ts`, current snapshot) -/

/-- `validateSelection` : look the selected code up among the
candidates; `null` when absent (substitution happens at the caller). -/
def validateSelection (selectedCode : Option Json)
    (candidates : List CategoryCandidate) : Option CategoryCandidate :=
  candidates.find? (fun c => jsEqStr c.code selectedCode)

/-- `ClassifierConfig` after the `{ ...DEFAULT_CONFIG, ...config }`
merge (the decision-service model selector is absorbed into the
environment). -/
structure ClassifierConfig where
  confidenceThreshold : ℚ := DEFAULT_CONFIDENCE_THRESHOLD
  maxCandidates : ℕ := 10
  extractAttributes : Bool := true
  deriving DecidableEq, Repr

/-- `CategoryAssignment`. -/
structure CategoryAssignment where
  code : String
  path : String
  gid : String
  confidence : ℚ
  deriving DecidableEq, Repr

/-- `AttributeAssignment` : the mapped rows of `extractAttributes`
(`handle`/`value` flow through untyped from the parsed response;
`name` is `attrDef?.name ?? a.handle`). -/
structure AttributeAssignment where
  handle : Option Json
  name : Option Json
  value : Option Json
  confidence : ℚ
  deriving Repr

/-- `ClassificationOutput` (`reasoning` flows through untyped from the
parsed decision). -/
structure ClassificationOutput where
  category : CategoryAssignment
  attributes : List AttributeAssignment
  reasoning : Json
  needsReview : Bool
  signals : ClassificationSignals
  deriving Repr

/-- `extractAttributes` : resolve the category's attribute schema,
prompt the decision service (no system prompt), degrade a malformed
response to no assignments. -/
def extractAttributes (env : ClassifierEnv) (input : ClassificationInput)
    (categoryPath : String) (attributeRefs : List AttributeRef) :
    Except String (List AttributeAssignment) :=
  let availableAttributes := attributeRefs.filterMap (fun ref =>
    env.attrByHandle ⟨(lowerStr ref.name).data.map (fun c => if c = ' ' then '_' else c)⟩)
  if availableAttributes.isEmpty then .ok []
  else
    let prompt := buildAttributeExtractionPrompt input categoryPath
      (availableAttributes.map (fun a => ⟨a.handle, a.name, a.values⟩))
    match env.llm none prompt with
    | .error e => .error e
    | .ok responseText =>
      let parsed := parseAttributeResponse responseText
      .ok (parsed.map (fun a =>
        let attrDef := availableAttributes.find? (fun d => jsEqStr d.handle a.handle)
        { handle := a.handle
          name := match attrDef with
            | some d => some (Json.str d.name)
            | none => a.handle
          value := a.value
          confidence := a.confidence }))

/-- `classify` : the single-pass orchestrator (bundle detection,
candidate generation, decision-service selection, fallback validation,
bundle depth adjustment, hierarchy resolution, confidence, optional
attribute extraction). -/
def classify (env : ClassifierEnv) (input : ClassificationInput)
    (cfg : ClassifierConfig) : Except String ClassificationOutput :=
  let bundleDetection := detectBundle input
  let maxDepth :=
    if bundleDetection.isBundle then some bundleDetection.recommendedMaxDepth
    else none
  let candidates := getCandidates env input cfg.maxCandidates maxDepth
  if candidates.length = 0 then .error "No category candidates found for product"
  else
    let systemPrompt := buildClassificationSystemPrompt
    let userPrompt := buildClassificationUserPrompt input candidates
    match env.llm (some systemPrompt) userPrompt with
    | .error e => .error e
    | .ok responseText =>
      match parseClassificationResponse responseText with
      | none => .error "Failed to parse LLM classification response"
      | some parsed =>
        let selectedCandidate := validateSelection parsed.selectedCode candidates
        let finalCode :=
          match selectedCandidate with
          | some c => c.code
          | none => candidates.headI.code
        let adjustedCode := adjustCategoryForBundle finalCode bundleDetection
        match env.lookup adjustedCode with
        | none => .error ("Category not found: " ++ adjustedCode)
        | some category =>
          let confidence := calculateConfidence parsed.confidence
            (candidates.head?.map (fun c => c.score)) (some bundleDetection)
          let attrRes : Except String (List AttributeAssignment) :=
            if cfg.extractAttributes ∧ category.attributes.isSome then
              extractAttributes env input category.full_name
                (category.attributes.getD [])
            else .ok []
          match attrRes with
          | .error e => .error e
          | .ok attributes =>
            .ok
              { category :=
                  { code := adjustedCode
                    path := category.full_name
                    gid := category.id
                    confidence := confidence }
                attributes := attributes
                reasoning := parsed.reasoning
                needsReview := needsReview confidence cfg.confidenceThreshold
                signals := buildSignals bundleDetection candidates.head? }

/-- `classifyOffline` : same pipeline without any decision-service
call — top candidate, neutral 0.5 decision confidence, review always
required, no attributes. -/
def classifyOffline (env : ClassifierEnv) (input : ClassificationInput)
    (cfg : ClassifierConfig) : Except String ClassificationOutput :=
  let bundleDetection := detectBundle input
  let maxDepth :=
    if bundleDetection.isBundle then some bundleDetection.recommendedMaxDepth
    else none
  let candidates := getCandidates env input cfg.maxCandidates maxDepth
  if candidates.length = 0 then .error "No category candidates found for product"
  else
    let topCandidate := candidates.headI
    let adjustedCode := adjustCategoryForBundle topCandidate.code bundleDetection
    match env.lookup adjustedCode with
    | none => .error ("Category not found: " ++ adjustedCode)
    | some category =>
      let confidence := calculateConfidence 0.5 (some topCandidate.score)
        (some bundleDetection)
      .ok
        { category :=
            { code := adjustedCode
              path := category.full_name
              gid := category.id
              confidence := confidence }
          attributes := []
          reasoning := Json.str "Selected top embedding match (offline mode)"
          needsReview := true
          signals := buildSignals bundleDetection (some topCandidate) }

/-- `getSearchText`. -/
def getSearchText (input : ClassificationInput) : String :=
  buildSearchText input

/-!
## Theorems

One theorem per claim, with helper lemmas shared between them.
-/

/-- C1: for every decision confidence, optional embedding score and
optional bundle detection — including values outside `[0,1]` — the
combined score returned by `calculateConfidence` lies within `[0,1]`. -/
theorem calculateConfidence_bounded (llmConfidence : ℚ)
    (embeddingScore : Option ℚ) (bundleDetection : Option BundleDetection) :
    0 ≤ calculateConfidence llmConfidence embeddingScore bundleDetection ∧
      calculateConfidence llmConfidence embeddingScore bundleDetection ≤ 1 := by
  unfold calculateConfidence
  exact ⟨le_min (by norm_num) (le_max_left 0 _), min_le_left 1 _⟩

/-- The accumulated bundle score is a sum of non-negative weights. -/
theorem bundleScore_nonneg (input : ClassificationInput) :
    0 ≤ bundleScore input := by
  unfold bundleScore
  have hv : (0 : ℚ) ≤ 0.2 * (variantSigs input).length := by positivity
  have h1 : (0 : ℚ) ≤ if (titleHit input).isSome then 0.4 else 0 := by
    split <;> norm_num
  have h2 : (0 : ℚ) ≤ if (descHit input).isSome then 0.2 else 0 := by
    split <;> norm_num
  have h3 : (0 : ℚ) ≤ if (typeHit input).isSome then 0.5 else 0 := by
    split <;> norm_num
  have h4 : (0 : ℚ) ≤ if (tagHit input).isSome then 0.4 else 0 := by
    split <;> norm_num
  linarith

/-- C3: on every input, `detectBundle` returns `isBundle` exactly when
the confidence reaches `0.4`, a confidence within `[0,1]`, and a
recommended maximum depth of `3` for bundles and `7` otherwise. -/
theorem detectBundle_invariants (input : ClassificationInput) :
    ((detectBundle input).isBundle = true ↔
      (0.4 : ℚ) ≤ (detectBundle input).confidence) ∧
    0 ≤ (detectBundle input).confidence ∧
    (detectBundle input).confidence ≤ 1 ∧
    (detectBundle input).recommendedMaxDepth =
      (if (detectBundle input).isBundle then 3 else 7) := by
  refine ⟨?_, ?_, ?_, ?_⟩
  · simp [detectBundle]
  · exact le_min (bundleScore_nonneg input) (by norm_num)
  · exact min_le_right _ _
  · rfl

/-- C2 part A helper: when every variant title normalizes to a
pack-count-only token, the variant scan yields no signal. -/
theorem detectVariantBundleSignals_packOnly (vs : List ProductVariant)
    (h : vs.all variantTitlePackOnly = true) :
    detectVariantBundleSignals vs = [] := by
  have hme : meaningfulVariants vs = [] := by
    unfold meaningfulVariants
    rw [List.filter_eq_nil_iff]
    intro t ht
    have ht2 := List.mem_filter.mp ht
    obtain ⟨v, hv, hvt⟩ := List.mem_filterMap.mp ht2.1
    unfold normVariantTitle at hvt
    cases hvi : v.title with
    | none => rw [hvi] at hvt; simp at hvt
    | some s =>
      rw [hvi] at hvt
      simp only [Option.map_some'] at hvt
      have hall := List.all_eq_true.mp h v hv
      have hps : packSizeOnly (trimStr (lowerStr s)) = true := by
        unfold variantTitlePackOnly at hall
        rw [hvi] at hall
        exact hall
      rw [← Option.some.inj hvt]
      simp [hps]
  unfold detectVariantBundleSignals
  rw [hme]
  simp

/-- C2: pack-count-only variant titles contribute no bundle signal —
an input whose other fields carry no bundle keyword and whose variant
titles are all pack-count tokens is never flagged as a bundle — while
three or more distinct meaningful (non-size, non-pack-count) variant
titles always produce a variant bundle signal. -/
theorem packCount_variants_no_bundle :
    (∀ input : ClassificationInput,
      titleHit input = none →
      descHit input = none →
      typeHit input = none →
      tagHit input = none →
      (input.variants.getD []).all variantTitlePackOnly = true →
      (detectBundle input).isBundle = false) ∧
    (∀ vs : List ProductVariant,
      3 ≤ ((meaningfulVariants vs).dedup).length →
      detectVariantBundleSignals vs ≠ []) := by
  constructor
  · intro input h1 h2 h3 h4 h5
    have hvs : variantSigs input = [] := by
      unfold variantSigs
      cases hv : input.variants with
      | none => rfl
      | some vs =>
        have : vs.all variantTitlePackOnly = true := by
          rw [hv] at h5; simpa using h5
        simp [detectVariantBundleSignals_packOnly vs this]
    have hscore : bundleScore input = 0 := by
      unfold bundleScore
      rw [h1, h2, h3, h4, hvs]
      norm_num
    simp [detectBundle, hscore]
    norm_num
  · intro vs h
    unfold detectVariantBundleSignals
    simp [h]

/-- Concrete instances of `packCount_variants_no_bundle` : pack-count
variants `6-pack/12-pack/24-pack` yield no bundle, three flavor
variants yield a signal. -/
theorem packCount_variants_no_bundle_witness :
    (detectBundle
      { title := "Granola Bars"
        variants := some [⟨some "6-pack", none⟩, ⟨some "12-pack", none⟩,
          ⟨some "24-pack", none⟩] }).isBundle = false ∧
    detectVariantBundleSignals
      [⟨some "Chocolate", none⟩, ⟨some "Vanilla", none⟩,
        ⟨some "Strawberry", none⟩] ≠ [] :=
  ⟨packCount_variants_no_bundle.1 _ (by decide) (by decide) (by decide)
      (by decide) (by decide),
   packCount_variants_no_bundle.2 _ (by decide)⟩

/-! Helper lemmas about `splitDash` / `joinDash` for the idempotence of
the bundle depth adjustment. -/

/-- Splitting never produces the empty list of segments. -/
theorem splitDash_ne_nil (l : List Char) : splitDash l ≠ [] := by
  induction l with
  | nil => simp [splitDash]
  | cons c rest ih =>
    unfold splitDash
    split
    · simp
    · cases h : splitDash rest <;> simp

/-- Splitting distributes over a leading dash. -/
theorem splitDash_cons_dash (u : List Char) :
    splitDash ('-' :: u) = [] :: splitDash u := by
  conv_lhs => unfold splitDash
  simp

/-- Splitting after a non-dash head extends the first segment. -/
theorem splitDash_cons_ne (c : Char) (rest : List Char) (hc : c ≠ '-')
    (hd : List Char) (tl : List (List Char)) (hrest : splitDash rest = hd :: tl) :
    splitDash (c :: rest) = (c :: hd) :: tl := by
  conv_lhs => unfold splitDash
  rw [if_neg hc, hrest]

/-- No segment produced by splitting contains a dash. -/
theorem splitDash_no_dash (l : List Char) :
    ∀ s ∈ splitDash l, '-' ∉ s := by
  induction l with
  | nil => simp [splitDash]
  | cons c rest ih =>
    by_cases hc : c = '-'
    · subst hc
      rw [splitDash_cons_dash]
      intro s hs
      rcases List.mem_cons.mp hs with h | h
      · subst h; simp
      · exact ih s h
    · cases hrest : splitDash rest with
      | nil => exact absurd hrest (splitDash_ne_nil rest)
      | cons hd tl =>
        rw [splitDash_cons_ne c rest hc hd tl hrest]
        intro s hs
        rcases List.mem_cons.mp hs with h2 | h2
        · subst h2
          intro hmem
          rcases List.mem_cons.mp hmem with h3 | h3
          · exact hc h3.symm
          · exact ih hd (hrest ▸ List.mem_cons_self hd tl) h3
        · exact ih s (hrest ▸ List.mem_cons_of_mem hd h2)

/-- Prepending dash-free characters extends the first segment. -/
theorem splitDash_append (s u : List Char) (hs : '-' ∉ s) (hd : List Char)
    (tl : List (List Char)) (hu : splitDash u = hd :: tl) :
    splitDash (s ++ u) = (s ++ hd) :: tl := by
  induction s with
  | nil => simpa using hu
  | cons c cs ih =>
    have hc : c ≠ '-' := fun h => hs (h ▸ List.mem_cons_self c cs)
    have hcs : '-' ∉ cs := fun h => hs (List.mem_cons_of_mem c h)
    have := ih hcs
    simp only [List.cons_append]
    unfold splitDash
    rw [if_neg (fun h => hc h)]
    rw [this]

/-- Splitting is a left inverse of joining for non-empty segment lists
whose segments are dash-free. -/
theorem splitDash_joinDash (l : List (List Char)) (hne : l ≠ [])
    (h : ∀ s ∈ l, '-' ∉ s) : splitDash (joinDash l) = l := by
  induction l with
  | nil => exact absurd rfl hne
  | cons s rest ih =>
    cases rest with
    | nil =>
      have hs : '-' ∉ s := h s (List.mem_cons_self s [])
      have h0 : splitDash ([] : List Char) = [[]] := rfl
      have happ := splitDash_append s [] hs [] [] h0
      have hj : joinDash [s] = s := rfl
      rw [hj, ← List.append_nil s, happ]
    | cons s2 rest2 =>
      have hs : '-' ∉ s := h s (List.mem_cons_self s _)
      have hrest : ∀ x ∈ s2 :: rest2, '-' ∉ x := fun x hx =>
        h x (List.mem_cons_of_mem s hx)
      have hjr := ih (by simp) hrest
      have hu : splitDash ('-' :: joinDash (s2 :: rest2)) =
          [] :: s2 :: rest2 := by
        rw [splitDash_cons_dash, hjr]
      have happ := splitDash_append s ('-' :: joinDash (s2 :: rest2)) hs []
        (s2 :: rest2) hu
      have hjoin : joinDash (s :: s2 :: rest2) =
          s ++ '-' :: joinDash (s2 :: rest2) := rfl
      rw [hjoin, happ]
      simp

/-- C9: `adjustCategoryForBundle` is idempotent — applying it to its
own output with the same detection returns the output unchanged — and
on a non-bundle detection it returns the input code unchanged. -/
theorem adjustCategoryForBundle_idem :
    (∀ (code : String) (bd : BundleDetection),
      adjustCategoryForBundle (adjustCategoryForBundle code bd) bd =
        adjustCategoryForBundle code bd) ∧
    (∀ (code : String) (bd : BundleDetection), bd.isBundle = false →
      adjustCategoryForBundle code bd = code) := by
  constructor
  · intro code bd
    by_cases hb : bd.isBundle
    · unfold adjustCategoryForBundle
      rw [hb]
      simp only [Bool.not_true, Bool.false_eq_true, if_false]
      by_cases hlen :
          bd.recommendedMaxDepth + 1 < (splitDash code.data).length
      · rw [if_pos hlen]
        set m := bd.recommendedMaxDepth + 1 with hm
        set parts := splitDash code.data with hparts
        have htake_ne : parts.take m ≠ [] := by
          cases hp : parts with
          | nil => exact absurd hp (splitDash_ne_nil code.data)
          | cons p ps => simp [hp, hm]
        have htake_nd : ∀ s ∈ parts.take m, '-' ∉ s := fun s hs =>
          splitDash_no_dash code.data s (List.take_subset m parts hs)
        have hsplit :
            splitDash (String.mk (joinDash (parts.take m))).data =
              parts.take m := by
          exact splitDash_joinDash (parts.take m) htake_ne htake_nd
        rw [hsplit]
        have hlen_take : (parts.take m).length = m := by
          rw [List.length_take]
          omega
        rw [hlen_take]
        simp
      · rw [if_neg hlen]
        rw [if_neg hlen]
    · unfold adjustCategoryForBundle
      simp [hb]
  · intro code bd hb
    unfold adjustCategoryForBundle
    simp [hb]

/-- Concrete instance of `adjustCategoryForBundle_idem` at a depth-5
code with a bundle detection, and at a non-bundle detection. -/
theorem adjustCategoryForBundle_idem_witness :
    adjustCategoryForBundle
        (adjustCategoryForBundle "fb-1-2-3-4-5" ⟨true, 1, [], 3⟩)
        ⟨true, 1, [], 3⟩ =
      adjustCategoryForBundle "fb-1-2-3-4-5" ⟨true, 1, [], 3⟩ ∧
    adjustCategoryForBundle "fb-1-2-3-4-5" ⟨false, 0, [], 7⟩ =
      "fb-1-2-3-4-5" :=
  ⟨adjustCategoryForBundle_idem.1 "fb-1-2-3-4-5" ⟨true, 1, [], 3⟩,
   adjustCategoryForBundle_idem.2 "fb-1-2-3-4-5" ⟨false, 0, [], 7⟩ rfl⟩

/-- The same classification input with the merchant type label removed. -/
def eraseProductType (input : ClassificationInput) : ClassificationInput :=
  { input with productType := none }

/-- C5: the normalized search string never depends on the merchant
type label — `buildSearchText` is invariant under erasing it — while
the prompt builder still renders the label as a context line for the
decision service. -/
theorem buildSearchText_excludes_productType :
    (∀ input : ClassificationInput,
      buildSearchText input = buildSearchText (eraseProductType input)) ∧
    (∀ (input : ClassificationInput) (p : String),
      input.productType = some p → p ≠ "" →
      ("**Product Type:** " ++ p) ∈ formatProductInfoLines input) := by
  constructor
  · intro input
    rfl
  · intro input p hp hne
    unfold formatProductInfoLines
    rw [hp]
    simp [hne]

/-- Concrete instance of `buildSearchText_excludes_productType` : the
label "Chocolate" is absent from the search text inputs but present in
the prompt lines. -/
theorem buildSearchText_excludes_productType_witness :
    buildSearchText
        { title := "Dark Chocolate Bar", productType := some "Chocolate" } =
      buildSearchText
        (eraseProductType
          { title := "Dark Chocolate Bar", productType := some "Chocolate" }) ∧
    ("**Product Type:** " ++ "Chocolate") ∈ formatProductInfoLines
      { title := "Dark Chocolate Bar", productType := some "Chocolate" } :=
  ⟨buildSearchText_excludes_productType.1 _,
   buildSearchText_excludes_productType.2 _ "Chocolate" rfl (by decide)⟩

/-- C10: a decodable block with no `selected_code`/`selectedCode`
field still parses to a non-null decision — the code is `undefined`
and a missing or non-numeric confidence is coerced to `0` — and
`validateSelection` then matches no candidate, whatever the candidate
list is. -/
theorem parseClassificationResponse_missing_code :
    parseClassificationResponse "\x7b\"reasoning\":\"hello\"\x7d" =
      some ⟨none, 0, Json.str "hello"⟩ ∧
    parseClassificationResponse
        "\x7b\"reasoning\":\"x\",\"confidence\":\"high\"\x7d" =
      some ⟨none, 0, Json.str "x"⟩ ∧
    (∀ candidates : List CategoryCandidate,
      validateSelection none candidates = none) := by
  refine ⟨by rfl, by rfl, ?_⟩
  intro candidates
  unfold validateSelection
  rw [List.find?_eq_none]
  intro c _
  simp [jsEqStr]

/-- C7 counterexample: the extraction regex is greedy, so on a
response whose first balanced block is valid JSON but which a stray
closing brace follows, the code returns `null` while extracting the
first balanced block (as the claim describes) would succeed. -/
theorem parseClassificationResponse_not_first_balanced :
    parseClassificationResponse
        "\x7b\"selected_code\":\"fb-1-3-1\",\"confidence\":0.9,\"reasoning\":\"ok\"\x7d tail \x7d" =
      none ∧
    parseClassificationResponseSpec
        "\x7b\"selected_code\":\"fb-1-3-1\",\"confidence\":0.9,\"reasoning\":\"ok\"\x7d tail \x7d" =
      some ⟨some (Json.str "fb-1-3-1"), 0.9, Json.str "ok"⟩ :=
  ⟨by rfl, by with_unfolding_all rfl⟩

/-- C7 (amended): `parseClassificationResponse` extracts the greedy
span from the first opening brace to the last closing brace (equal to
the first balanced block only when no stray brace follows, e.g. under
code-fence wrapping), clamps the reported confidence to `[0,1]` — a
response reporting `1.5` yields exactly `1` — and returns `null`
whenever extraction or JSON decoding fails. -/
theorem parseClassificationResponse_greedy_clamped :
    (∀ (s : String) (d : ClassificationDecision),
      parseClassificationResponse s = some d →
      0 ≤ d.confidence ∧ d.confidence ≤ 1) ∧
    parseClassificationResponse
        "\x7b\"selected_code\": \"fb-1-3-1\", \"confidence\": 1.5, \"reasoning\": \"x\"\x7d" =
      some ⟨some (Json.str "fb-1-3-1"), 1, Json.str "x"⟩ ∧
    parseClassificationResponse
        "Here you go:\n```json\n\x7b\n  \"selected_code\": \"fb-1-3\",\n  \"confidence\": 0.8,\n  \"reasoning\": \"Candy\"\n\x7d\n```" =
      some ⟨some (Json.str "fb-1-3"), 0.8, Json.str "Candy"⟩ ∧
    (∀ s : String, extractBrace s.data = none →
      parseClassificationResponse s = none) ∧
    (∀ (s : String) (block : List Char), extractBrace s.data = some block →
      jsonParse block = none → parseClassificationResponse s = none) := by
  refine ⟨?_, by with_unfolding_all rfl, by with_unfolding_all rfl, ?_, ?_⟩
  · intro s d h
    unfold parseClassificationResponse at h
    split at h
    · exact absurd h (by simp)
    · split at h
      · exact absurd h (by simp)
      · simp only [Option.some.injEq] at h
        rw [← h]
        exact ⟨le_min (by norm_num) (le_max_left 0 _), min_le_left 1 _⟩
  · intro s hb
    unfold parseClassificationResponse
    rw [hb]
  · intro s block hb hj
    unfold parseClassificationResponse
    rw [hb]
    simp only []
    rw [hj]

/-- Concrete instances of `parseClassificationResponse_greedy_clamped`
discharging its hypotheses: bounds at a parsed response, `null` when
the text carries no brace pair, `null` when the block fails to
decode. -/
theorem parseClassificationResponse_greedy_clamped_witness :
    (0 ≤ (0.8 : ℚ) ∧ (0.8 : ℚ) ≤ 1) ∧
    parseClassificationResponse "not json" = none ∧
    parseClassificationResponse "\x7bnope\x7d" = none := by
  refine ⟨?_, ?_, ?_⟩
  · have h := parseClassificationResponse_greedy_clamped.1
      "Here you go:\n```json\n\x7b\n  \"selected_code\": \"fb-1-3\",\n  \"confidence\": 0.8,\n  \"reasoning\": \"Candy\"\n\x7d\n```"
      ⟨some (Json.str "fb-1-3"), 0.8, Json.str "Candy"⟩ (by with_unfolding_all rfl)
    exact h
  · exact parseClassificationResponse_greedy_clamped.2.2.2.1 "not json" (by rfl)
  · exact parseClassificationResponse_greedy_clamped.2.2.2.2 "\x7bnope\x7d"
      "\x7bnope\x7d".data (by rfl) (by rfl)

/-- An environment whose similarity search always fails. -/
def envFail : ClassifierEnv :=
  { embedSearch := fun _ _ _ => Except.error "boom"
    lookup := fun _ => none
    attrByHandle := fun _ => none
    llm := fun _ _ => Except.ok "" }

/-- An environment with a single similarity hit and its hierarchy
node. -/
def envOne : ClassifierEnv :=
  { embedSearch := fun _ _ _ =>
      Except.ok [{ categoryCode := "fb-1-2", fullPath := "Food > Snacks",
                   level := 2, similarity := 0.5 }]
    lookup := fun code =>
      if code = "fb-1-2" then
        some { id := "gid://shopify/TaxonomyCategory/fb-1-2",
               full_name := "Food > Snacks", level := 2, attributes := none }
      else none
    attrByHandle := fun _ => none
    llm := fun _ _ => Except.ok "" }

/-- C4: an erroring similarity search makes the embedding candidate
source return the empty list instead of propagating the error, and an
empty merged candidate list makes `classify` fail with the distinct
no-candidates failure — before any decision-service call and distinct
from a retrieval error — never a low-confidence success. -/
theorem noCandidates_failure_policy :
    (∀ (env : ClassifierEnv) (input : ClassificationInput)
        (maxCandidates : ℕ) (maxDepth : Option ℕ) (e : String),
      env.embedSearch (buildSearchText input) maxCandidates maxDepth =
        Except.error e →
      getCandidatesFromEmbeddings env input maxCandidates maxDepth = []) ∧
    (∀ (env : ClassifierEnv) (input : ClassificationInput)
        (cfg : ClassifierConfig),
      getCandidates env input cfg.maxCandidates
        (if (detectBundle input).isBundle then
          some (detectBundle input).recommendedMaxDepth
        else none) = [] →
      classify env input cfg =
        Except.error "No category candidates found for product") := by
  constructor
  · intro env input maxC maxD e he
    simp only [getCandidatesFromEmbeddings]
    rw [he]
  · intro env input cfg hc
    simp only [classify]
    rw [hc]
    simp

/-- Concrete instances of `noCandidates_failure_policy` : with a
failing vector store, retrieval returns no candidates and `classify`
reports the no-candidates failure. -/
theorem noCandidates_failure_policy_witness :
    getCandidatesFromEmbeddings envFail { title := "Hot Honey" } 10 none = [] ∧
    classify envFail { title := "Hot Honey" } {} =
      Except.error "No category candidates found for product" :=
  ⟨noCandidates_failure_policy.1 envFail { title := "Hot Honey" } 10 none
      "boom" rfl,
   noCandidates_failure_policy.2 envFail { title := "Hot Honey" } {}
      (by with_unfolding_all rfl)⟩

/-- C8: whenever `classifyOffline` succeeds it flags the result for
review, returns no attributes, selects the top-ranked candidate
(depth-adjusted), and scores it with the decision confidence fixed at
the neutral `0.5`; and its result never depends on the decision
service (replacing the `llm` collaborator changes nothing). -/
theorem classifyOffline_contract :
    (∀ (env : ClassifierEnv) (input : ClassificationInput)
        (cfg : ClassifierConfig) (out : ClassificationOutput),
      classifyOffline env input cfg = Except.ok out →
      out.needsReview = true ∧
      out.attributes = [] ∧
      out.category.code =
        adjustCategoryForBundle
          (getCandidates env input cfg.maxCandidates
            (if (detectBundle input).isBundle then
              some (detectBundle input).recommendedMaxDepth
            else none)).headI.code
          (detectBundle input) ∧
      out.category.confidence =
        calculateConfidence 0.5
          (some (getCandidates env input cfg.maxCandidates
            (if (detectBundle input).isBundle then
              some (detectBundle input).recommendedMaxDepth
            else none)).headI.score)
          (some (detectBundle input))) ∧
    (∀ (env : ClassifierEnv)
        (f : Option String → String → Except String String)
        (input : ClassificationInput) (cfg : ClassifierConfig),
      classifyOffline { env with llm := f } input cfg =
        classifyOffline env input cfg) := by
  constructor
  · intro env input cfg out h
    simp only [classifyOffline] at h
    set md :=
      (if (detectBundle input).isBundle then
        some (detectBundle input).recommendedMaxDepth
      else none) with hmd
    split at h
    · exact absurd h (by simp)
    · split at h
      · exact absurd h (by simp)
      · simp only [Except.ok.injEq] at h
        rw [← h]
        exact ⟨rfl, rfl, rfl, rfl⟩
  · intro env f input cfg
    rfl

/-- The output `classifyOffline` produces on `envOne`. -/
def offlineOutW : ClassificationOutput :=
  { category :=
      { code := "fb-1-2"
        path := "Food > Snacks"
        gid := "gid://shopify/TaxonomyCategory/fb-1-2"
        confidence := 19/40 }
    attributes := []
    reasoning := Json.str "Selected top embedding match (offline mode)"
    needsReview := true
    signals :=
      { isBundle := false
        embeddingTopMatch := some "Food > Snacks"
        embeddingScore := some (1/2) } }

/-- Concrete instance of `classifyOffline_contract` at a one-candidate
environment, plus insensitivity to a broken decision service. -/
theorem classifyOffline_contract_witness :
    (offlineOutW.needsReview = true ∧ offlineOutW.attributes = [] ∧
      offlineOutW.category.code =
        adjustCategoryForBundle
          (getCandidates envOne { title := "Hot Honey" }
            ({} : ClassifierConfig).maxCandidates
            (if (detectBundle { title := "Hot Honey" }).isBundle then
              some (detectBundle { title := "Hot Honey" }).recommendedMaxDepth
            else none)).headI.code
          (detectBundle { title := "Hot Honey" }) ∧
      offlineOutW.category.confidence =
        calculateConfidence 0.5
          (some (getCandidates envOne { title := "Hot Honey" }
            ({} : ClassifierConfig).maxCandidates
            (if (detectBundle { title := "Hot Honey" }).isBundle then
              some (detectBundle { title := "Hot Honey" }).recommendedMaxDepth
            else none)).headI.score)
          (some (detectBundle { title := "Hot Honey" }))) ∧
    classifyOffline { envOne with llm := (fun _ _ => Except.error "down") }
        { title := "Hot Honey" } {} =
      classifyOffline envOne { title := "Hot Honey" } {} :=
  ⟨classifyOffline_contract.1 envOne { title := "Hot Honey" } {} offlineOutW
     (by with_unfolding_all rfl),
   classifyOffline_contract.2 envOne (fun _ _ => Except.error "down")
     { title := "Hot Honey" } {}⟩

/-! Helper lemmas about the `Map`-based candidate deduplication for the
merge properties of `getCandidates`. -/

/-- Every entry after an upsert is an old entry or the new candidate. -/
theorem upsert_sub (acc : List CategoryCandidate) (c a : CategoryCandidate)
    (h : a ∈ upsert acc c) : a ∈ acc ∨ a = c := by
  induction acc with
  | nil =>
    right
    simpa [upsert] using h
  | cons hd tl ih =>
    unfold upsert at h
    by_cases h1 : hd.code = c.code
    · rw [if_pos h1] at h
      by_cases h2 : hd.score < c.score
      · rw [if_pos h2] at h
        rcases List.mem_cons.mp h with h3 | h3
        · right; exact h3
        · left; exact List.mem_cons_of_mem hd h3
      · rw [if_neg h2] at h
        exact Or.inl h
    · rw [if_neg h1] at h
      rcases List.mem_cons.mp h with h3 | h3
      · subst h3; left; exact List.mem_cons_self a tl
      · rcases ih h3 with h4 | h4
        · left; exact List.mem_cons_of_mem hd h4
        · right; exact h4

/-- The key set after an upsert gains exactly the new code. -/
theorem upsert_codes (acc : List CategoryCandidate) (c : CategoryCandidate) :
    (upsert acc c).map (fun x => x.code) =
      if c.code ∈ acc.map (fun x => x.code) then acc.map (fun x => x.code)
      else acc.map (fun x => x.code) ++ [c.code] := by
  induction acc with
  | nil => simp [upsert]
  | cons hd tl ih =>
    unfold upsert
    by_cases h1 : hd.code = c.code
    · rw [if_pos h1]
      by_cases h2 : hd.score < c.score
      · rw [if_pos h2]
        have : c.code ∈ (hd :: tl).map (fun x => x.code) := by
          simp [h1.symm]
        rw [if_pos this]
        simp [h1]
      · rw [if_neg h2]
        have : c.code ∈ (hd :: tl).map (fun x => x.code) := by
          simp [h1.symm]
        rw [if_pos this]
    · rw [if_neg h1]
      by_cases hm : c.code ∈ tl.map (fun x => x.code)
      · have : c.code ∈ (hd :: tl).map (fun x => x.code) := by
          simp [hm]
        rw [if_pos this]
        simp only [List.map_cons]
        rw [ih, if_pos hm]
      · have : c.code ∉ (hd :: tl).map (fun x => x.code) := by
          simp only [List.map_cons, List.mem_cons]
          rintro (h3 | h3)
          · exact h1 h3.symm
          · exact hm h3
        rw [if_neg this]
        simp only [List.map_cons]
        rw [ih, if_neg hm]
        simp

/-- After an upsert some entry carries the new candidate's code with
at least its score. -/
theorem upsert_exists_ge_new (acc : List CategoryCandidate)
    (c : CategoryCandidate) :
    ∃ a ∈ upsert acc c, a.code = c.code ∧ c.score ≤ a.score := by
  induction acc with
  | nil => exact ⟨c, by simp [upsert]⟩
  | cons hd tl ih =>
    unfold upsert
    by_cases h1 : hd.code = c.code
    · rw [if_pos h1]
      by_cases h2 : hd.score < c.score
      · rw [if_pos h2]
        exact ⟨c, List.mem_cons_self c tl, rfl, le_refl _⟩
      · rw [if_neg h2]
        exact ⟨hd, List.mem_cons_self hd tl, h1, le_of_not_lt h2⟩
    · rw [if_neg h1]
      obtain ⟨a, ha, hcode, hscore⟩ := ih
      exact ⟨a, List.mem_cons_of_mem hd ha, hcode, hscore⟩

/-- After an upsert every old entry's code is still represented with
at least the old score. -/
theorem upsert_exists_ge_old (acc : List CategoryCandidate)
    (c a' : CategoryCandidate) (ha' : a' ∈ acc) :
    ∃ a ∈ upsert acc c, a.code = a'.code ∧ a'.score ≤ a.score := by
  induction acc with
  | nil => cases ha'
  | cons hd tl ih =>
    unfold upsert
    by_cases h1 : hd.code = c.code
    · rw [if_pos h1]
      by_cases h2 : hd.score < c.score
      · rw [if_pos h2]
        rcases List.mem_cons.mp ha' with h3 | h3
        · subst h3
          exact ⟨c, List.mem_cons_self c tl, h1.symm, le_of_lt h2⟩
        · exact ⟨a', List.mem_cons_of_mem c h3, rfl, le_refl _⟩
      · rw [if_neg h2]
        exact ⟨a', ha', rfl, le_refl _⟩
    · rw [if_neg h1]
      rcases List.mem_cons.mp ha' with h3 | h3
      · subst h3
        exact ⟨a', List.mem_cons_self a' _, rfl, le_refl _⟩
      · obtain ⟨a, ha, hcode, hscore⟩ := ih h3
        exact ⟨a, List.mem_cons_of_mem hd ha, hcode, hscore⟩

/-- Shape of an entry after an upsert into a map with distinct keys:
either an old entry that already dominates the new score on a key
clash, or the new candidate dominating every old clash. -/
theorem upsert_cases (acc : List CategoryCandidate) (c : CategoryCandidate)
    (hnd : (acc.map (fun x => x.code)).Nodup) (a : CategoryCandidate)
    (ha : a ∈ upsert acc c) :
    (a ∈ acc ∧ (a.code = c.code → c.score ≤ a.score)) ∨
    (a = c ∧ ∀ e ∈ acc, e.code = c.code → e.score ≤ c.score) := by
  induction acc with
  | nil =>
    right
    refine ⟨by simpa [upsert] using ha, ?_⟩
    intro e he
    cases he
  | cons hd tl ih =>
    have hnd_tl : (tl.map (fun x => x.code)).Nodup :=
      (List.nodup_cons.mp hnd).2
    have hd_notin : hd.code ∉ tl.map (fun x => x.code) :=
      (List.nodup_cons.mp hnd).1
    unfold upsert at ha
    by_cases h1 : hd.code = c.code
    · rw [if_pos h1] at ha
      by_cases h2 : hd.score < c.score
      · rw [if_pos h2] at ha
        rcases List.mem_cons.mp ha with h3 | h3
        · subst h3
          right
          refine ⟨rfl, ?_⟩
          intro e he hecode
          rcases List.mem_cons.mp he with h4 | h4
          · subst h4; exact le_of_lt h2
          · exact absurd (hecode.symm ▸ List.mem_map_of_mem (fun x => x.code) h4)
              (h1 ▸ hd_notin)
        · left
          refine ⟨List.mem_cons_of_mem hd h3, ?_⟩
          intro hacode
          exact absurd (hacode.symm ▸ List.mem_map_of_mem (fun x => x.code) h3)
            (h1 ▸ hd_notin)
      · rw [if_neg h2] at ha
        rcases List.mem_cons.mp ha with h3 | h3
        · subst h3
          left
          exact ⟨List.mem_cons_self a tl, fun _ => le_of_not_lt h2⟩
        · left
          refine ⟨List.mem_cons_of_mem hd h3, ?_⟩
          intro hacode
          exact absurd (hacode.symm ▸ List.mem_map_of_mem (fun x => x.code) h3)
            (h1 ▸ hd_notin)
    · rw [if_neg h1] at ha
      rcases List.mem_cons.mp ha with h3 | h3
      · subst h3
        left
        exact ⟨List.mem_cons_self a tl, fun hacode => absurd hacode h1⟩
      · rcases ih hnd_tl h3 with ⟨h4, h5⟩ | ⟨h4, h5⟩
        · exact Or.inl ⟨List.mem_cons_of_mem hd h4, h5⟩
        · right
          refine ⟨h4, ?_⟩
          intro e he hecode
          rcases List.mem_cons.mp he with h6 | h6
          · exact absurd (h6 ▸ hecode) h1
          · exact h5 e h6 hecode

/-- The running invariant of `deduplicateCandidates` : distinct keys,
entries drawn from the processed prefix, per-key maximality, and
complete key coverage of the processed prefix. -/
def MergeInv (processed acc : List CategoryCandidate) : Prop :=
  ((acc.map (fun x => x.code)).Nodup) ∧
  (∀ a ∈ acc, a ∈ processed) ∧
  (∀ a ∈ acc, ∀ d ∈ processed, d.code = a.code → d.score ≤ a.score) ∧
  (∀ d ∈ processed, ∃ a ∈ acc, a.code = d.code ∧ d.score ≤ a.score)

/-- One upsert preserves the invariant. -/
theorem mergeInv_step (processed acc : List CategoryCandidate)
    (c : CategoryCandidate) (h : MergeInv processed acc) :
    MergeInv (processed ++ [c]) (upsert acc c) := by
  obtain ⟨hnd, hsub, hmax, hcov⟩ := h
  refine ⟨?_, ?_, ?_, ?_⟩
  · rw [upsert_codes]
    split
    · exact hnd
    · simp only [List.nodup_append]
      refine ⟨hnd, List.nodup_singleton _, ?_⟩
      intro k hk
      simp only [List.mem_singleton]
      intro hkc
      subst hkc
      exact absurd hk (by assumption)
  · intro a ha
    rcases upsert_sub acc c a ha with h2 | h2
    · exact List.mem_append_left _ (hsub a h2)
    · subst h2; exact List.mem_append_right _ (List.mem_singleton_self a)
  · intro a ha d hd hdc
    rcases upsert_cases acc c hnd a ha with ⟨h2, h3⟩ | ⟨h2, h3⟩
    · rcases List.mem_append.mp hd with h4 | h4
      · exact hmax a h2 d h4 hdc
      · have : d = c := List.mem_singleton.mp h4
        subst this
        exact h3 hdc.symm
    · subst h2
      rcases List.mem_append.mp hd with h4 | h4
      · obtain ⟨e, he, hecode, hescore⟩ := hcov d h4
        exact le_trans hescore (h3 e he (hecode.trans hdc))
      · have : d = a := List.mem_singleton.mp h4
        subst this
        exact le_refl _
  · intro d hd
    rcases List.mem_append.mp hd with h4 | h4
    · obtain ⟨e, he, hecode, hescore⟩ := hcov d h4
      obtain ⟨a, ha, hacode, hascore⟩ := upsert_exists_ge_old acc c e he
      exact ⟨a, ha, hacode.trans hecode, le_trans hescore hascore⟩
    · have hdc2 : d = c := List.mem_singleton.mp h4
      rw [hdc2]
      exact upsert_exists_ge_new acc c

/-- The fold of upserts preserves the invariant. -/
theorem mergeInv_foldl (cs : List CategoryCandidate) :
    ∀ (processed acc : List CategoryCandidate), MergeInv processed acc →
    MergeInv (processed ++ cs) (cs.foldl upsert acc) := by
  induction cs with
  | nil => intro processed acc h; simpa using h
  | cons c cs ih =>
    intro processed acc h
    have h1 := mergeInv_step processed acc c h
    have h2 := ih (processed ++ [c]) (upsert acc c) h1
    simpa [List.append_assoc] using h2

/-- `deduplicateCandidates` satisfies the invariant over its whole
input. -/
theorem deduplicateCandidates_spec (cs : List CategoryCandidate) :
    MergeInv cs (deduplicateCandidates cs) := by
  have h0 : MergeInv [] [] := by
    refine ⟨List.nodup_nil, ?_, ?_, ?_⟩ <;> intro a ha <;> cases ha
  have := mergeInv_foldl cs [] [] h0
  simpa [deduplicateCandidates] using this

/-- C6: the two-source merge concatenates the anchor and embedding
candidate lists, deduplicates by category code keeping the maximum
score per code, sorts descending by score, and truncates to at most
`maxCandidates` entries. -/
theorem mergeCandidates_spec (productTypeCands embeddingCands :
    List CategoryCandidate) (maxCandidates : ℕ) :
    (mergeCandidates productTypeCands embeddingCands maxCandidates).length ≤
      maxCandidates ∧
    (mergeCandidates productTypeCands embeddingCands maxCandidates).Sorted
      byScoreDesc ∧
    (∀ a ∈ mergeCandidates productTypeCands embeddingCands maxCandidates,
      a ∈ productTypeCands ++ embeddingCands) ∧
    (∀ a ∈ mergeCandidates productTypeCands embeddingCands maxCandidates,
      ∀ d ∈ productTypeCands ++ embeddingCands,
        d.code = a.code → d.score ≤ a.score) ∧
    ((mergeCandidates productTypeCands embeddingCands maxCandidates).map
      (fun c => c.code)).Nodup ∧
    (∀ d ∈ productTypeCands ++ embeddingCands,
      ∃ a ∈ deduplicateCandidates (productTypeCands ++ embeddingCands),
        a.code = d.code ∧ d.score ≤ a.score) := by
  obtain ⟨hnd, hsub, hmax, hcov⟩ :=
    deduplicateCandidates_spec (productTypeCands ++ embeddingCands)
  have hperm : List.Perm
      (List.insertionSort byScoreDesc
        (deduplicateCandidates (productTypeCands ++ embeddingCands)))
      (deduplicateCandidates (productTypeCands ++ embeddingCands)) :=
    List.perm_insertionSort byScoreDesc _
  have hsorted : (List.insertionSort byScoreDesc
      (deduplicateCandidates (productTypeCands ++ embeddingCands))).Sorted
      byScoreDesc :=
    List.sorted_insertionSort byScoreDesc _
  have htake : mergeCandidates productTypeCands embeddingCands maxCandidates =
      (List.insertionSort byScoreDesc
        (deduplicateCandidates (productTypeCands ++ embeddingCands))).take
        maxCandidates := rfl
  refine ⟨?_, ?_, ?_, ?_, ?_, hcov⟩
  · rw [htake]
    simp [List.length_take_le]
  · rw [htake]
    exact List.Pairwise.sublist (List.take_sublist _ _) hsorted
  · intro a ha
    rw [htake] at ha
    exact hsub a (hperm.subset (List.take_subset _ _ ha))
  · intro a ha d hd hdc
    rw [htake] at ha
    exact hmax a (hperm.subset (List.take_subset _ _ ha)) d hd hdc
  · rw [htake]
    have hnodup_sorted : ((List.insertionSort byScoreDesc
        (deduplicateCandidates (productTypeCands ++ embeddingCands))).map
        (fun c => c.code)).Nodup :=
      ((hperm.map (fun c => c.code)).nodup_iff).mpr hnd
    exact List.Nodup.sublist (List.Sublist.map _ (List.take_sublist _ _))
      hnodup_sorted

/-- The anchor-source candidate list of the merge witness. -/
def ptCandsW : List CategoryCandidate :=
  [⟨"fb-1", "A", 1, CandidateSource.productType, 3⟩]

/-- The embedding-source candidate list of the merge witness. -/
def embCandsW : List CategoryCandidate :=
  [⟨"fb-1", "A", 1, CandidateSource.embedding, 1⟩,
   ⟨"fb-2", "B", 1, CandidateSource.embedding, 2⟩]

/-- Concrete instance of `mergeCandidates_spec` : the anchor and
embedding sources share the code "fb-1"; the merge keeps the maximum
score per code, stays sorted, and covers every input code. -/
theorem mergeCandidates_spec_witness :
    (mergeCandidates ptCandsW embCandsW 10).length ≤ 10 ∧
    (mergeCandidates ptCandsW embCandsW 10).Sorted byScoreDesc ∧
    (⟨"fb-1", "A", 1, CandidateSource.productType, 3⟩ : CategoryCandidate) ∈
      ptCandsW ++ embCandsW ∧
    (⟨"fb-1", "A", 1, CandidateSource.embedding, 1⟩ :
        CategoryCandidate).score ≤
      (⟨"fb-1", "A", 1, CandidateSource.productType, 3⟩ :
        CategoryCandidate).score ∧
    ((mergeCandidates ptCandsW embCandsW 10).map (fun c => c.code)).Nodup ∧
    (∃ a ∈ deduplicateCandidates (ptCandsW ++ embCandsW),
      a.code = (⟨"fb-1", "A", 1, CandidateSource.embedding, 1⟩ :
        CategoryCandidate).code ∧
      (⟨"fb-1", "A", 1, CandidateSource.embedding, 1⟩ :
        CategoryCandidate).score ≤ a.score) :=
  ⟨(mergeCandidates_spec ptCandsW embCandsW 10).1,
   (mergeCandidates_spec ptCandsW embCandsW 10).2.1,
   (mergeCandidates_spec ptCandsW embCandsW 10).2.2.1
     ⟨"fb-1", "A", 1, CandidateSource.productType, 3⟩ (by decide),
   (mergeCandidates_spec ptCandsW embCandsW 10).2.2.2.1
     ⟨"fb-1", "A", 1, CandidateSource.productType, 3⟩ (by decide)
     ⟨"fb-1", "A", 1, CandidateSource.embedding, 1⟩ (by decide) (by decide),
   (mergeCandidates_spec ptCandsW embCandsW 10).2.2.2.2.1,
   (mergeCandidates_spec ptCandsW embCandsW 10).2.2.2.2.2
     ⟨"fb-1", "A", 1, CandidateSource.embedding, 1⟩ (by decide)⟩

end BubbleAI
